import Mathlib

/-!
Shallow embedding of the Me-API Playground backend (FastAPI + SQLAlchemy,
PostgreSQL) core: the relational store for a singleton Profile aggregate
with five child collections and a project/skill join table, the nested
create/replace operations, the top-skills ranking query, the cross-entity
search, and the basic-auth guard.

Rows mirror models.py; inputs mirror schemas.py; operations mirror the
endpoint bodies in main.py.  Timestamps are abstracted as naturals; the
database engine (database.py) enforces foreign keys with ON DELETE CASCADE,
which the bulk-delete and ORM-delete embeddings reproduce explicitly.
-/

namespace MeApi

/-- Error taxonomy of main.py; HTTP mapping below. -/
inductive ApiError where
  | notFound
  | conflict
  | unauthorized
deriving Repr, DecidableEq

/-- HTTP status code attached to each error by the endpoints. -/
def httpStatus : ApiError → Nat
  | .notFound => 404
  | .conflict => 400
  | .unauthorized => 401

/-! ## Input payloads (schemas.py) -/

/-- EducationCreate (schemas.py). -/
structure EducationInput where
  institution : String
  degree : String
  field : Option String := none
  start_date : Option String := none
  end_date : Option String := none
  gpa : Option Rat := none
  description : Option String := none
deriving Repr, DecidableEq

/-- WorkExperienceCreate (schemas.py). -/
structure WorkInput where
  company : String
  position : String
  description : Option String := none
  start_date : Option String := none
  end_date : Option String := none
  is_current : Bool := false
  location : Option String := none
deriving Repr, DecidableEq

/-- SkillCreate (schemas.py). -/
structure SkillInput where
  name : String
  level : Option String := none
  category : Option String := none
  years_experience : Option Rat := none
deriving Repr, DecidableEq

/-- ProjectCreate minus skill_ids: the columns of the projects table row
(model_dump with skill_ids popped, main.py). -/
structure ProjectInput where
  name : String
  description : Option String := none
  url : Option String := none
  github_url : Option String := none
  demo_url : Option String := none
  start_date : Option String := none
  end_date : Option String := none
  status : Option String := none
deriving Repr, DecidableEq

/-- ProjectCreate (schemas.py): row payload plus skill ids to associate. -/
structure ProjectCreate where
  payload : ProjectInput
  skill_ids : List Nat := []
deriving Repr, DecidableEq

/-- SocialLinkCreate (schemas.py). -/
structure SocialLinkInput where
  platform : String
  url : String
  icon : Option String := none
deriving Repr, DecidableEq

/-- The five scalar columns shared by ProfileCreate/ProfileUpdate (schemas.py). -/
structure ProfileFields where
  name : String
  email : String
  phone : Option String := none
  location : Option String := none
  bio : Option String := none
deriving Repr, DecidableEq

/-- ProfileCreate (schemas.py): nested aggregate input; absent lists default
to empty. -/
structure ProfileCreate where
  fields : ProfileFields
  education : List EducationInput := []
  work_experience : List WorkInput := []
  projects : List ProjectCreate := []
  skills : List SkillInput := []
  social_links : List SocialLinkInput := []
deriving Repr, DecidableEq

/-- ProfileUpdate (schemas.py): each child collection is either absent
(`none`) or an authoritative replacement list. -/
structure ProfileUpdate where
  fields : ProfileFields
  education : Option (List EducationInput) := none
  work_experience : Option (List WorkInput) := none
  projects : Option (List ProjectCreate) := none
  skills : Option (List SkillInput) := none
  social_links : Option (List SocialLinkInput) := none
deriving Repr, DecidableEq

/-! ## Table rows (models.py) -/

/-- profiles table row (models.py Profile). -/
structure ProfileRow where
  id : Nat
  fields : ProfileFields
  created_at : Nat
  updated_at : Nat
deriving Repr, DecidableEq

/-- A child-table row: every child model of models.py has the shape
(autoincrement id, profile_id FK, payload columns). -/
structure Row (A : Type) where
  id : Nat
  profile_id : Nat
  data : A
deriving Repr, DecidableEq

/-- education table row. -/
abbrev EducationRow := Row EducationInput

/-- work_experience table row. -/
abbrev WorkRow := Row WorkInput

/-- projects table row. -/
abbrev ProjectRow := Row ProjectInput

/-- skills table row. -/
abbrev SkillRow := Row SkillInput

/-- social_links table row. -/
abbrev SocialLinkRow := Row SocialLinkInput

/-- Database state: one row list per table, the project_skills join table
as (project_id, skill_id) pairs, and per-table autoincrement counters.
The profiles table holds at most one row (application invariant), modelled
as an `Option`; `db.query(Profile).first()` reads it. -/
structure DB where
  profile : Option ProfileRow
  education : List EducationRow
  work_experience : List WorkRow
  projects : List ProjectRow
  skills : List SkillRow
  social_links : List SocialLinkRow
  project_skills : List (Nat × Nat)
  nextProfileId : Nat
  nextEducationId : Nat
  nextWorkId : Nat
  nextProjectId : Nat
  nextSkillId : Nat
  nextSocialLinkId : Nat
deriving Repr, DecidableEq

/-- The empty store (fresh database after init_db). -/
def DB.empty : DB :=
  { profile := none, education := [], work_experience := [], projects := []
    skills := [], social_links := [], project_skills := []
    nextProfileId := 1, nextEducationId := 1, nextWorkId := 1
    nextProjectId := 1, nextSkillId := 1, nextSocialLinkId := 1 }

/-! ## Referential well-formedness

Facts guaranteed by the schema (FK + cascade) and the singleton-profile
invariant: every child row references the live profile, ids are below the
autoincrement counter and unique per table, and join rows reference live
rows with no duplicate pairs. -/

/-- Every child row belongs to the live profile; with no profile, the
cascade guarantees empty child tables. -/
abbrev profileOwns (db : DB) : Prop :=
  (db.profile = none →
      db.education = [] ∧ db.work_experience = [] ∧ db.projects = [] ∧
      db.skills = [] ∧ db.social_links = []) ∧
  (∀ p ∈ db.profile,
      (∀ e ∈ db.education, e.profile_id = p.id) ∧
      (∀ w ∈ db.work_experience, w.profile_id = p.id) ∧
      (∀ pr ∈ db.projects, pr.profile_id = p.id) ∧
      (∀ s ∈ db.skills, s.profile_id = p.id) ∧
      (∀ l ∈ db.social_links, l.profile_id = p.id))

/-- All assigned ids are below the table's autoincrement counter. -/
abbrev freshIds (db : DB) : Prop :=
  (∀ p ∈ db.profile, p.id < db.nextProfileId) ∧
  (∀ e ∈ db.education, e.id < db.nextEducationId) ∧
  (∀ w ∈ db.work_experience, w.id < db.nextWorkId) ∧
  (∀ pr ∈ db.projects, pr.id < db.nextProjectId) ∧
  (∀ s ∈ db.skills, s.id < db.nextSkillId) ∧
  (∀ l ∈ db.social_links, l.id < db.nextSocialLinkId)

/-- Join-table integrity: both endpoints of every pair exist, no duplicate
pairs (composite primary key). -/
abbrev joinOk (db : DB) : Prop :=
  (∀ l ∈ db.project_skills,
      (∃ pr ∈ db.projects, pr.id = l.1) ∧ (∃ s ∈ db.skills, s.id = l.2)) ∧
  db.project_skills.Nodup

/-- Primary keys are unique per table. -/
abbrev idsNodup (db : DB) : Prop :=
  (db.projects.map (fun pr => pr.id)).Nodup ∧
  (db.skills.map (fun s => s.id)).Nodup ∧
  (db.education.map (fun e => e.id)).Nodup ∧
  (db.work_experience.map (fun w => w.id)).Nodup ∧
  (db.social_links.map (fun l => l.id)).Nodup

/-- Full store well-formedness. -/
abbrev WF (db : DB) : Prop :=
  profileOwns db ∧ freshIds db ∧ joinOk db ∧ idsNodup db

/-! ## Row construction

Each `db.add(Model(profile_id=..., **input.model_dump()))` loop inserts the
supplied inputs in order; the database assigns consecutive autoincrement
ids starting at the table's counter. -/

/-- Insert payloads as child rows with consecutive ids from `start`. -/
def mkRows {A : Type} (pid : Nat) (start : Nat) : List A → List (Row A)
  | [] => []
  | x :: xs => ⟨start, pid, x⟩ :: mkRows pid (start + 1) xs

/-- `db.query(Skill).filter(Skill.id.in_(skill_ids)).all()` followed by
`project.skills.extend(skills)`: one join row per skill row of the table
whose id occurs in the supplied list (`if skill_ids:` guard is equivalent:
an empty list yields no rows). -/
def resolveSkillLinks (projId : Nat) (sids : List Nat) (skills : List SkillRow) :
    List (Nat × Nat) :=
  (skills.filter (fun sk => sids.contains sk.id)).map (fun sk => (projId, sk.id))

/-- Join rows produced by inserting the given project inputs (ids from
`start`) against the current skills table. -/
def projectLinks (start : Nat) (skills : List SkillRow) : List ProjectCreate → List (Nat × Nat)
  | [] => []
  | p :: ps => resolveSkillLinks start p.skill_ids skills ++ projectLinks (start + 1) skills ps

/-! ## Endpoint operations (main.py)

Fallible handlers return `Except ApiError`; a raised `HTTPException` aborts
the request before commit, so the store is unchanged on error
(`dbAfter` makes that explicit). -/

/-- Final store state of a handler run: errors roll back to the input state. -/
def dbAfter {α : Type} (r : Except ApiError (α × DB)) (db : DB) : DB :=
  match r with
  | .error _ => db
  | .ok (_, db2) => db2

/-- Did the handler succeed? -/
def isOk {α : Type} : Except ApiError α → Bool
  | .ok _ => true
  | .error _ => false

/-- GET /profile (read_profile, main.py): first Profile row or 404. -/
def read_profile (db : DB) : Except ApiError ProfileRow :=
  match db.profile with
  | none => .error .notFound
  | some p => .ok p

/-- POST /profile (create_profile, main.py): conflict if a profile exists;
otherwise insert profile, children, skills (flushed for ids), then projects
with skill-id resolution against the skills table, then social links. -/
def create_profile (now : Nat) (input : ProfileCreate) (db : DB) :
    Except ApiError (ProfileRow × DB) :=
  match db.profile with
  | some _ => .error .conflict
  | none =>
    let pid := db.nextProfileId
    let profile : ProfileRow := ⟨pid, input.fields, now, now⟩
    let skillsAfter := db.skills ++ mkRows pid db.nextSkillId input.skills
    .ok (profile,
      { profile := some profile
        education := db.education ++ mkRows pid db.nextEducationId input.education
        work_experience := db.work_experience ++ mkRows pid db.nextWorkId input.work_experience
        projects := db.projects ++
          mkRows pid db.nextProjectId (input.projects.map (fun p => p.payload))
        skills := skillsAfter
        social_links := db.social_links ++
          mkRows pid db.nextSocialLinkId input.social_links
        project_skills := db.project_skills ++
          projectLinks db.nextProjectId skillsAfter input.projects
        nextProfileId := pid + 1
        nextEducationId := db.nextEducationId + input.education.length
        nextWorkId := db.nextWorkId + input.work_experience.length
        nextProjectId := db.nextProjectId + input.projects.length
        nextSkillId := db.nextSkillId + input.skills.length
        nextSocialLinkId := db.nextSocialLinkId + input.social_links.length })

/-- `if profile_data.education is not None:` branch of update_profile:
bulk-delete this profile's education rows, re-insert the supplied list. -/
def replaceEducation (pid : Nat) (inp : Option (List EducationInput))
    (cur : List EducationRow) (next : Nat) : List EducationRow × Nat :=
  match inp with
  | none => (cur, next)
  | some xs =>
      (cur.filter (fun e => e.profile_id != pid) ++ mkRows pid next xs,
       next + xs.length)

/-- Work-experience branch of update_profile. -/
def replaceWork (pid : Nat) (inp : Option (List WorkInput))
    (cur : List WorkRow) (next : Nat) : List WorkRow × Nat :=
  match inp with
  | none => (cur, next)
  | some xs =>
      (cur.filter (fun w => w.profile_id != pid) ++ mkRows pid next xs,
       next + xs.length)

/-- Skills branch of update_profile: the bulk delete cascades (FK
ON DELETE CASCADE) to join rows whose skill_id was deleted; new skill rows
are inserted and flushed. -/
def replaceSkills (pid : Nat) (inp : Option (List SkillInput))
    (cur : List SkillRow) (links : List (Nat × Nat)) (next : Nat) :
    List SkillRow × List (Nat × Nat) × Nat :=
  match inp with
  | none => (cur, links, next)
  | some xs =>
      let deleted := (cur.filter (fun s => s.profile_id == pid)).map (fun s => s.id)
      (cur.filter (fun s => s.profile_id != pid) ++ mkRows pid next xs,
       links.filter (fun l => !(deleted.contains l.2)),
       next + xs.length)

/-- Projects branch of update_profile: bulk delete (join rows cascade on
project_id), then insert each supplied project, resolving its skill_ids
against the current skills table. -/
def replaceProjects (pid : Nat) (inp : Option (List ProjectCreate))
    (cur : List ProjectRow) (skillsNow : List SkillRow)
    (links : List (Nat × Nat)) (next : Nat) :
    List ProjectRow × List (Nat × Nat) × Nat :=
  match inp with
  | none => (cur, links, next)
  | some ps =>
      let deleted := (cur.filter (fun pr => pr.profile_id == pid)).map (fun pr => pr.id)
      (cur.filter (fun pr => pr.profile_id != pid) ++
         mkRows pid next (ps.map (fun p => p.payload)),
       links.filter (fun l => !(deleted.contains l.1)) ++ projectLinks next skillsNow ps,
       next + ps.length)

/-- Social-links branch of update_profile. -/
def replaceSocialLinks (pid : Nat) (inp : Option (List SocialLinkInput))
    (cur : List SocialLinkRow) (next : Nat) : List SocialLinkRow × Nat :=
  match inp with
  | none => (cur, next)
  | some xs =>
      (cur.filter (fun l => l.profile_id != pid) ++ mkRows pid next xs,
       next + xs.length)

/-- PUT /profile (update_profile, main.py): 404 without a profile;
otherwise overwrite scalar fields, stamp updated_at, then apply the five
replace-if-present branches in source order (education, work, skills,
flush, projects, social links) — project skill resolution sees the
post-replacement skills table. -/
def update_profile (now : Nat) (input : ProfileUpdate) (db : DB) :
    Except ApiError (ProfileRow × DB) :=
  match db.profile with
  | none => .error .notFound
  | some p0 =>
    let pid := p0.id
    let p1 : ProfileRow := { p0 with fields := input.fields, updated_at := now }
    let eduR := replaceEducation pid input.education db.education db.nextEducationId
    let workR := replaceWork pid input.work_experience db.work_experience db.nextWorkId
    let skillR := replaceSkills pid input.skills db.skills db.project_skills db.nextSkillId
    let projR := replaceProjects pid input.projects db.projects skillR.1 skillR.2.1
      db.nextProjectId
    let socialR := replaceSocialLinks pid input.social_links db.social_links
      db.nextSocialLinkId
    .ok (p1,
      { profile := some p1
        education := eduR.1
        work_experience := workR.1
        projects := projR.1
        skills := skillR.1
        social_links := socialR.1
        project_skills := projR.2.1
        nextProfileId := db.nextProfileId
        nextEducationId := eduR.2
        nextWorkId := workR.2
        nextProjectId := projR.2.2
        nextSkillId := skillR.2.2
        nextSocialLinkId := socialR.2 })

/-- DELETE /profile (delete_profile, main.py): ORM delete with
cascade="all, delete-orphan" on the five child relationships and secondary
join cleanup — removes every child row of the profile and every join row
referencing one of its projects or skills. -/
def delete_profile (db : DB) : Except ApiError (Unit × DB) :=
  match db.profile with
  | none => .error .notFound
  | some p =>
    let pid := p.id
    let delProj := (db.projects.filter (fun pr => pr.profile_id == pid)).map (fun pr => pr.id)
    let delSkill := (db.skills.filter (fun s => s.profile_id == pid)).map (fun s => s.id)
    .ok ((),
      { db with
        profile := none
        education := db.education.filter (fun e => e.profile_id != pid)
        work_experience := db.work_experience.filter (fun w => w.profile_id != pid)
        projects := db.projects.filter (fun pr => pr.profile_id != pid)
        skills := db.skills.filter (fun s => s.profile_id != pid)
        social_links := db.social_links.filter (fun l => l.profile_id != pid)
        project_skills := db.project_skills.filter
          (fun l => !(delProj.contains l.1) && !(delSkill.contains l.2)) })

/-- GET /education (read_education, main.py): 404 without a profile, else
the profile's education rows (relationship = rows with its profile_id). -/
def read_education (db : DB) : Except ApiError (List EducationRow) :=
  match db.profile with
  | none => .error .notFound
  | some p => .ok (db.education.filter (fun e => e.profile_id == p.id))

/-- GET /work-experience (read_work_experience, main.py). -/
def read_work_experience (db : DB) : Except ApiError (List WorkRow) :=
  match db.profile with
  | none => .error .notFound
  | some p => .ok (db.work_experience.filter (fun w => w.profile_id == p.id))

/-- GET /skills (read_skills, main.py). -/
def read_skills (db : DB) : Except ApiError (List SkillRow) :=
  match db.profile with
  | none => .error .notFound
  | some p => .ok (db.skills.filter (fun s => s.profile_id == p.id))

/-- GET /social-links (read_social_links, main.py). -/
def read_social_links (db : DB) : Except ApiError (List SocialLinkRow) :=
  match db.profile with
  | none => .error .notFound
  | some p => .ok (db.social_links.filter (fun l => l.profile_id == p.id))

/-- POST /education (create_education, main.py): 404 without a profile,
else insert one education row; the Profile row itself is not touched. -/
def create_education (input : EducationInput) (db : DB) :
    Except ApiError (EducationRow × DB) :=
  match db.profile with
  | none => .error .notFound
  | some p =>
    let row : EducationRow := ⟨db.nextEducationId, p.id, input⟩
    .ok (row,
      { db with
        education := db.education ++ [row]
        nextEducationId := db.nextEducationId + 1 })

/-! ## Queries: projects listing, top skills, search (main.py) -/

/-- Character-wise lowercase, embedding Python str.lower() and SQL lower(). -/
def pyLower (s : String) : List Char := s.data.map Char.toLower

/-- GET /projects (get_projects, main.py): all project rows, optionally
joined on the skills relationship and filtered by lowercased skill name
(`if skill:` — the empty string disables the filter), optionally filtered
by exact status. The join can repeat a project once per matching skill. -/
def get_projects (skill : Option String) (statusQ : Option String) (db : DB) :
    List ProjectRow :=
  let q1 := db.projects
  let q2 :=
    match skill with
    | none => q1
    | some s =>
        if s == "" then q1
        else q1.flatMap (fun pr =>
          (db.skills.filter (fun sk =>
            db.project_skills.contains (pr.id, sk.id) && pyLower sk.data.name == pyLower s)).map
            (fun _ => pr))
  match statusQ with
  | none => q2
  | some st => if st == "" then q2 else q2.filter (fun pr => pr.data.status == some st)

/-- The grouped count of get_top_skills: skills outer-joined to projects
through the join table, `count(Project.id)` per skill — one counted row per
(join row, project row) match; a skill with no join rows counts 0. -/
def projectCount (db : DB) (sk : SkillRow) : Nat :=
  ((db.project_skills.filter (fun l => l.2 == sk.id)).map
    (fun l => (db.projects.filter (fun pr => pr.id == l.1)).length)).sum

/-- Insert into a list sorted by `le` (true = goes no later). -/
def insertLe {α : Type} (le : α → α → Bool) (x : α) : List α → List α
  | [] => [x]
  | y :: ys => if le x y then x :: y :: ys else y :: insertLe le x ys

/-- Insertion sort by `le`; embeds the SQL ORDER BY / Python list.sort
(only the ordering contract matters — ties have no specified order). -/
def sortLe {α : Type} (le : α → α → Bool) : List α → List α
  | [] => []
  | x :: xs => insertLe le x (sortLe le xs)

/-- GET /skills/top (get_top_skills, main.py): every skill with its project
count, ordered by count descending, first `limit` rows. -/
def get_top_skills (limit : Nat) (db : DB) : List (SkillRow × Nat) :=
  (sortLe (fun a b => b.2 ≤ a.2)
    (db.skills.map (fun sk => (sk, projectCount db sk)))).take limit

/-- Python list prefix test on characters. -/
def listPrefix : List Char → List Char → Bool
  | [], _ => true
  | _ :: _, [] => false
  | a :: as, b :: bs => a == b && listPrefix as bs

/-- Python substring containment `p in t` on characters. -/
def listSub (p : List Char) : List Char → Bool
  | [] => listPrefix p []
  | c :: ts => listPrefix p (c :: ts) || listSub p ts

/-- `q.lower() in s.lower()` (the scoring test of search_content). -/
def containsLower (q s : String) : Bool := listSub (pyLower q) (pyLower s)

/-- Try a continuation on every suffix of the text (the `%` wildcard). -/
def likeStar (f : List Char → Bool) : List Char → Bool
  | [] => f []
  | c :: ts => f (c :: ts) || likeStar f ts

/-- SQL LIKE matching with PostgreSQL's default escape character:
`\x` matches the literal character x, `%` matches any character sequence,
`_` any single character, anything else itself. A pattern ending in a lone
escape character is rejected by PostgreSQL ("LIKE pattern must not end with
escape character"); patterns built by search_content always end in `%`, so
that arm (modelled as no match) is unreachable there. -/
def likeMatch : List Char → List Char → Bool
  | [], t => t.isEmpty
  | p :: ps, t =>
      if p = '\\' then
        match ps, t with
        | [], _ => false
        | _ :: _, [] => false
        | e :: ps2, c :: ts => (e == c) && likeMatch ps2 ts
      else if p = '%' then likeStar (likeMatch ps) t
      else
        match t with
        | [] => false
        | c :: ts => (if p = '_' then true else p == c) && likeMatch ps ts

/-- The pattern `f"%{q.lower()}%"` built by search_content. -/
def likePattern (q : String) : List Char := '%' :: (pyLower q ++ ['%'])

/-- `func.lower(col).like(pattern)` on a nullable column: NULL never
matches. -/
def optLike (pat : List Char) : Option String → Bool
  | none => false
  | some s => likeMatch pat (pyLower s)

/-- One entry of the /search response (SearchResult, schemas.py). -/
structure SearchResult where
  type : String
  id : Nat
  title : String
  description : Option String
  relevance_score : Rat
deriving Repr, DecidableEq

/-- GET /search (search_content, main.py): LIKE-filter projects on
name/description and work experience on position/description/company,
score 1.0 plus 0.5 when the lowercased query is a substring of the
non-empty title field, then sort by score descending. -/
def search_content (q : String) (db : DB) : List SearchResult :=
  let pat := likePattern q
  let projResults := (db.projects.filter (fun pr =>
      likeMatch pat (pyLower pr.data.name) || optLike pat pr.data.description)).map
    (fun pr =>
      { type := "project", id := pr.id, title := pr.data.name
        description := pr.data.description
        relevance_score :=
          if pr.data.name != "" && containsLower q pr.data.name then 3/2 else 1 })
  let workResults := (db.work_experience.filter (fun w =>
      likeMatch pat (pyLower w.data.position) || optLike pat w.data.description ||
        likeMatch pat (pyLower w.data.company))).map
    (fun w =>
      { type := "work_experience", id := w.id
        title := w.data.position ++ " at " ++ w.data.company
        description := w.data.description
        relevance_score :=
          if w.data.position != "" && containsLower q w.data.position then 3/2 else 1 })
  sortLe (fun a b => decide (b.relevance_score ≤ a.relevance_score))
    (projResults ++ workResults)

/-! ## Access guard (auth.py) -/

/-- The username/password pair sent by the caller (HTTPBasicCredentials). -/
structure Credentials where
  username : String
  password : String
deriving Repr, DecidableEq

/-- The configured ADMIN_USERNAME / ADMIN_PASSWORD pair. -/
structure AuthConfig where
  username : String
  password : String
deriving Repr, DecidableEq

/-- verify_credentials (auth.py): both comparisons must succeed (the
constant-time comparison decides exactly byte equality); otherwise 401
with a WWW-Authenticate challenge. -/
def verify_credentials (cfg : AuthConfig) (c : Credentials) : Except ApiError String :=
  if c.username == cfg.username && c.password == cfg.password then .ok c.username
  else .error .unauthorized

/-- A write endpoint behind `Depends(verify_credentials)`: the guard runs
before the handler body; on failure the handler never executes. -/
def withAuth {α : Type} (cfg : AuthConfig) (c : Credentials)
    (handler : DB → Except ApiError (α × DB)) (db : DB) : Except ApiError (α × DB) :=
  match verify_credentials cfg c with
  | .error e => .error e
  | .ok _ => handler db

/-! ## State-after abbreviations used in the claim statements -/

/-- Store state after POST /profile (unchanged on error). -/
def createdDB (now : Nat) (input : ProfileCreate) (db : DB) : DB :=
  dbAfter (create_profile now input db) db

/-- Store state after PUT /profile (unchanged on error). -/
def updatedDB (now : Nat) (input : ProfileUpdate) (db : DB) : DB :=
  dbAfter (update_profile now input db) db

/-- Store state after DELETE /profile (unchanged on error). -/
def deletedDB (db : DB) : DB :=
  dbAfter (delete_profile db) db

/-- `q.lower() in col.lower()` on a nullable column: NULL never contains. -/
def optContains (q : String) : Option String → Bool
  | none => false
  | some s => containsLower q s

/-- The /search project filter, written with substring containment (the
claim-level reading of the LIKE filter). -/
def projMatch (q : String) (pr : ProjectRow) : Bool :=
  containsLower q pr.data.name || optContains q pr.data.description

/-- The /search work-experience filter, written with substring containment. -/
def workMatch (q : String) (w : WorkRow) : Bool :=
  containsLower q w.data.position || optContains q w.data.description ||
    containsLower q w.data.company

/-- The result record search_content builds for a matching project. -/
def projResult (q : String) (pr : ProjectRow) : SearchResult :=
  { type := "project", id := pr.id, title := pr.data.name
    description := pr.data.description
    relevance_score :=
      if pr.data.name != "" && containsLower q pr.data.name then 3/2 else 1 }

/-- The result record search_content builds for a matching work row. -/
def workResult (q : String) (w : WorkRow) : SearchResult :=
  { type := "work_experience", id := w.id
    title := w.data.position ++ " at " ++ w.data.company
    description := w.data.description
    relevance_score :=
      if w.data.position != "" && containsLower q w.data.position then 3/2 else 1 }


/-! ## Concrete stores and inputs used in witnesses and counterexamples -/

/-- Sample profile scalar fields. -/
def exFields : ProfileFields := { name := "Jane", email := "jane@example.com" }

/-- Sample profile row (updated_at = 5). -/
def exProfile : ProfileRow := { id := 1, fields := exFields, created_at := 0, updated_at := 5 }

/-- A well-formed store with one row per table and one project/skill link. -/
def exDb : DB :=
  { profile := some exProfile
    education := [⟨1, 1, { institution := "U", degree := "BS" }⟩]
    work_experience := [⟨1, 1, { company := "Acme", position := "Engineer" }⟩]
    projects := [⟨1, 1, { name := "Chat App" }⟩]
    skills := [⟨1, 1, { name := "Go" }⟩]
    social_links := [⟨1, 1, { platform := "github", url := "https://g" }⟩]
    project_skills := [(1, 1)]
    nextProfileId := 2, nextEducationId := 2, nextWorkId := 2
    nextProjectId := 2, nextSkillId := 2, nextSocialLinkId := 2 }

/-- Update supplying only an education list. -/
def c1input : ProfileUpdate :=
  { fields := exFields, education := some [{ institution := "X", degree := "MS" }] }

/-- Nested create input: two skills, two projects (one referencing an
unknown skill id 9), one row of each other child type. -/
def c2input : ProfileCreate :=
  { fields := exFields
    education := [{ institution := "U", degree := "BS" }]
    work_experience := [{ company := "A", position := "E" }]
    skills := [{ name := "A" }, { name := "B" }]
    projects := [{ payload := { name := "P1" }, skill_ids := [1, 2, 9] },
                 { payload := { name := "P2" } }]
    social_links := [{ platform := "github", url := "https://g" }] }

/-- Update supplying a projects list but no skills list; the project
references the pre-existing skill id 1. -/
def c3input : ProfileUpdate :=
  { fields := exFields
    projects := some [{ payload := { name := "P2" }, skill_ids := [1] }] }

/-- Update supplying both a skills list and a projects list; the project
references skill id 1 (a pre-existing id, not a newly inserted one:
the new skill gets id 2). -/
def c3winput : ProfileUpdate :=
  { fields := exFields
    skills := some [{ name := "Rust" }]
    projects := some [{ payload := { name := "P2" }, skill_ids := [1, 2] }] }

/-- Store with a second skill that has no linked project. -/
def c6db : DB :=
  { exDb with
    skills := [⟨1, 1, { name := "Go" }⟩, ⟨2, 1, { name := "React" }⟩]
    nextSkillId := 3 }

/-- Store whose only project is named "ab" (no description), used for the
LIKE-wildcard counterexample. -/
def c7db : DB :=
  { exDb with
    projects := [⟨1, 1, { name := "ab" }⟩]
    work_experience := [] }

/-- Configured credentials (auth.py defaults). -/
def exCfg : AuthConfig := { username := "admin", password := "niweshsah" }

/-- A wrong password. -/
def badCreds : Credentials := { username := "admin", password := "wrong" }

/-- The correct pair. -/
def goodCreds : Credentials := { username := "admin", password := "niweshsah" }

/-- Education payload used in the child-creation counterexample. -/
def eduIn : EducationInput := { institution := "I", degree := "D" }

/-! ## Supporting lemmas: inserted rows -/

theorem mkRows_length {A : Type} (pid start : Nat) (xs : List A) :
    (mkRows pid start xs).length = xs.length := by
  induction xs generalizing start with
  | nil => rfl
  | cons x xs ih => simp [mkRows, ih]

theorem mkRows_map_data {A : Type} (pid start : Nat) (xs : List A) :
    (mkRows pid start xs).map (fun r => r.data) = xs := by
  induction xs generalizing start with
  | nil => rfl
  | cons x xs ih => simp [mkRows, ih]

theorem mkRows_profile_id {A : Type} {pid start : Nat} {xs : List A} :
    ∀ r ∈ mkRows pid start xs, r.profile_id = pid := by
  induction xs generalizing start with
  | nil => intro r hr; cases hr
  | cons x xs ih =>
    intro r hr
    rcases List.mem_cons.mp hr with h | h
    · subst h; rfl
    · exact ih r h

theorem mkRows_id_bounds {A : Type} {pid start : Nat} {xs : List A} :
    ∀ r ∈ mkRows pid start xs, start ≤ r.id ∧ r.id < start + xs.length := by
  induction xs generalizing start with
  | nil => intro r hr; cases hr
  | cons x xs ih =>
    intro r hr
    rcases List.mem_cons.mp hr with h | h
    · subst h; simp
    · have := ih r h
      simp only [List.length_cons]
      omega

theorem mkRows_map_id_mem {A : Type} (pid start : Nat) (xs : List A) (a : Nat) :
    a ∈ (mkRows pid start xs).map (fun r => r.id) ↔
      start ≤ a ∧ a < start + xs.length := by
  induction xs generalizing start with
  | nil => simp [mkRows]
  | cons x xs ih =>
    simp only [mkRows, List.map_cons, List.mem_cons, ih, List.length_cons]
    omega

theorem filter_same_profile {A : Type} {pid : Nat} {l : List (Row A)}
    (h : ∀ r ∈ l, r.profile_id = pid) :
    l.filter (fun r => r.profile_id != pid) = [] := by
  rw [List.filter_eq_nil_iff]
  intro r hr
  simp [h r hr]

theorem filter_keep_profile {A : Type} {pid : Nat} {l : List (Row A)}
    (h : ∀ r ∈ l, r.profile_id = pid) :
    l.filter (fun r => r.profile_id == pid) = l := by
  rw [List.filter_eq_self]
  intro r hr
  simp [h r hr]

/-! ## Supporting lemmas: sorting -/

theorem mem_insertLe {α : Type} (le : α → α → Bool) (x y : α) (l : List α) :
    y ∈ insertLe le x l ↔ y = x ∨ y ∈ l := by
  induction l with
  | nil => simp [insertLe]
  | cons z zs ih =>
    by_cases h : le x z = true
    · simp [insertLe, h]
    · simp only [insertLe, if_neg h, List.mem_cons, ih]
      tauto

theorem length_insertLe {α : Type} (le : α → α → Bool) (x : α) (l : List α) :
    (insertLe le x l).length = l.length + 1 := by
  induction l with
  | nil => rfl
  | cons z zs ih =>
    by_cases h : le x z = true
    · simp [insertLe, h]
    · simp [insertLe, h, ih]

theorem mem_sortLe {α : Type} (le : α → α → Bool) (y : α) (l : List α) :
    y ∈ sortLe le l ↔ y ∈ l := by
  induction l with
  | nil => simp [sortLe]
  | cons x xs ih => simp [sortLe, mem_insertLe, ih]

theorem length_sortLe {α : Type} (le : α → α → Bool) (l : List α) :
    (sortLe le l).length = l.length := by
  induction l with
  | nil => rfl
  | cons x xs ih => simp [sortLe, length_insertLe, ih]

theorem pairwise_insertLe {α : Type} (le : α → α → Bool)
    (htot : ∀ a b, le a b = true ∨ le b a = true)
    (htrans : ∀ a b c, le a b = true → le b c = true → le a c = true)
    (x : α) (l : List α) (hl : l.Pairwise (fun a b => le a b = true)) :
    (insertLe le x l).Pairwise (fun a b => le a b = true) := by
  induction l with
  | nil => simp [insertLe]
  | cons y ys ih =>
    rcases List.pairwise_cons.mp hl with ⟨hy, hys⟩
    by_cases h : le x y = true
    · rw [insertLe, if_pos h]
      refine List.pairwise_cons.mpr ⟨?_, hl⟩
      intro b hb
      rcases List.mem_cons.mp hb with rfl | hb
      · exact h
      · exact htrans x y b h (hy b hb)
    · rw [insertLe, if_neg h]
      refine List.pairwise_cons.mpr ⟨?_, ih hys⟩
      intro b hb
      rcases (mem_insertLe le x b ys).mp hb with hbx | hb
      · rw [hbx]
        rcases htot x y with h1 | h1
        · exact absurd h1 h
        · exact h1
      · exact hy b hb

theorem pairwise_sortLe {α : Type} (le : α → α → Bool)
    (htot : ∀ a b, le a b = true ∨ le b a = true)
    (htrans : ∀ a b c, le a b = true → le b c = true → le a c = true)
    (l : List α) : (sortLe le l).Pairwise (fun a b => le a b = true) := by
  induction l with
  | nil => simp [sortLe]
  | cons x xs ih => exact pairwise_insertLe le htot htrans x _ ih

/-! ## Supporting lemmas: join links -/

/-- Positional lookup, used to speak about the i-th supplied project. -/
def nth {α : Type} : List α → Nat → Option α
  | [], _ => none
  | x :: _, 0 => some x
  | _ :: xs, i + 1 => nth xs i

theorem mem_resolveSkillLinks {a b projId : Nat} {sids : List Nat}
    {skills : List SkillRow} :
    (a, b) ∈ resolveSkillLinks projId sids skills ↔
      a = projId ∧ b ∈ sids ∧ ∃ sk ∈ skills, sk.id = b := by
  unfold resolveSkillLinks
  simp only [List.mem_map, List.mem_filter]
  constructor
  · rintro ⟨sk, ⟨hsk, hc⟩, heq⟩
    have h1 : projId = a := congrArg Prod.fst heq
    have h2 : sk.id = b := congrArg Prod.snd heq
    subst h1; subst h2
    exact ⟨rfl, by simpa using hc, sk, hsk, rfl⟩
  · rintro ⟨rfl, h2, sk, hsk, hid⟩
    exact ⟨sk, ⟨hsk, by simpa [hid] using h2⟩, by rw [hid]⟩

theorem projectLinks_fst_ge {x : Nat × Nat} {start : Nat} {skills : List SkillRow}
    {ps : List ProjectCreate} (hx : x ∈ projectLinks start skills ps) :
    start ≤ x.1 := by
  induction ps generalizing start with
  | nil => cases hx
  | cons p ps ih =>
    rcases List.mem_append.mp hx with h | h
    · obtain ⟨a, b⟩ := x
      have := (mem_resolveSkillLinks.mp h).1
      omega
    · have := ih h
      omega

theorem pair_mem_projectLinks {skills : List SkillRow} {ps : List ProjectCreate}
    {start i sid : Nat} {p : ProjectCreate} (hp : nth ps i = some p) :
    ((start + i, sid) ∈ projectLinks start skills ps ↔
      (sid ∈ p.skill_ids ∧ ∃ sk ∈ skills, sk.id = sid)) := by
  induction ps generalizing start i with
  | nil => cases hp
  | cons q ps ih =>
    cases i with
    | zero =>
      rw [nth] at hp
      injection hp with hp
      subst hp
      simp only [projectLinks, List.mem_append]
      constructor
      · rintro (hm | hm)
        · have := mem_resolveSkillLinks.mp hm
          exact ⟨this.2.1, this.2.2⟩
        · exfalso
          have := projectLinks_fst_ge hm
          omega
      · rintro ⟨h1, h2⟩
        exact Or.inl (mem_resolveSkillLinks.mpr ⟨by omega, h1, h2⟩)
    | succ i =>
      rw [nth] at hp
      simp only [projectLinks, List.mem_append]
      have heq : start + (i + 1) = (start + 1) + i := by omega
      constructor
      · rintro (hm | hm)
        · have := (mem_resolveSkillLinks.mp hm).1
          omega
        · rw [heq] at hm
          exact (ih hp).mp hm
      · intro hgoal
        right
        rw [heq]
        exact (ih hp).mpr hgoal

/-! ## Supporting lemmas: consequences of well-formedness -/

theorem wf_owned {db : DB} {p : ProfileRow} (hwf : WF db) (hp : db.profile = some p) :
    (∀ e ∈ db.education, e.profile_id = p.id) ∧
    (∀ w ∈ db.work_experience, w.profile_id = p.id) ∧
    (∀ pr ∈ db.projects, pr.profile_id = p.id) ∧
    (∀ s ∈ db.skills, s.profile_id = p.id) ∧
    (∀ l ∈ db.social_links, l.profile_id = p.id) :=
  hwf.1.2 p (by rw [hp]; rfl)

theorem wf_empty_children {db : DB} (hwf : WF db) (hnone : db.profile = none) :
    db.education = [] ∧ db.work_experience = [] ∧ db.projects = [] ∧
    db.skills = [] ∧ db.social_links = [] :=
  hwf.1.1 hnone

theorem wf_links_empty {db : DB} (hwf : WF db) (hnone : db.profile = none) :
    db.project_skills = [] := by
  have hproj : db.projects = [] := (wf_empty_children hwf hnone).2.2.1
  rcases hwf.2.2.1 with ⟨hjoin, -⟩
  rw [List.eq_nil_iff_forall_not_mem]
  intro l hl
  obtain ⟨⟨pr, hpr, -⟩, -⟩ := hjoin l hl
  rw [hproj] at hpr
  cases hpr

theorem wf_links_fst_lt {db : DB} (hwf : WF db) :
    ∀ l ∈ db.project_skills, l.1 < db.nextProjectId := by
  intro l hl
  rcases hwf.2.2.1 with ⟨hjoin, -⟩
  obtain ⟨⟨pr, hpr, hid⟩, -⟩ := hjoin l hl
  have := hwf.2.1.2.2.2.1 pr hpr
  omega

theorem replaced_rows {A : Type} (pid next : Nat) (cur : List (Row A)) (xs : List A)
    (hown : ∀ r ∈ cur, r.profile_id = pid) (hfresh : ∀ r ∈ cur, r.id < next) :
    cur.filter (fun r => r.profile_id != pid) ++ mkRows pid next xs = mkRows pid next xs ∧
    (mkRows pid next xs).map (fun r => r.data) = xs ∧
    ∀ r ∈ cur, r ∉ mkRows pid next xs := by
  refine ⟨by rw [filter_same_profile hown]; rfl, mkRows_map_data pid next xs, ?_⟩
  intro r hr hmem
  have h1 := (mkRows_id_bounds r hmem).1
  have h2 := hfresh r hr
  omega

/-! ## Claims -/

/-- C1: For PUT /profile on an existing Profile, each of the five child
collections is left exactly unchanged when its field is absent from the
input, and is replaced by exactly the supplied list as brand-new rows
(no pre-existing row surviving) when the field is present as a list. -/
theorem C1_put_child_collections
    (now : Nat) (input : ProfileUpdate) (db : DB) (p : ProfileRow)
    (hwf : WF db) (hp : db.profile = some p) :
    ((input.education = none → (updatedDB now input db).education = db.education) ∧
     (∀ xs, input.education = some xs →
        (updatedDB now input db).education = mkRows p.id db.nextEducationId xs ∧
        (updatedDB now input db).education.map (fun r => r.data) = xs ∧
        ∀ e ∈ db.education, e ∉ (updatedDB now input db).education)) ∧
    ((input.work_experience = none →
        (updatedDB now input db).work_experience = db.work_experience) ∧
     (∀ xs, input.work_experience = some xs →
        (updatedDB now input db).work_experience = mkRows p.id db.nextWorkId xs ∧
        (updatedDB now input db).work_experience.map (fun r => r.data) = xs ∧
        ∀ w ∈ db.work_experience, w ∉ (updatedDB now input db).work_experience)) ∧
    ((input.projects = none → (updatedDB now input db).projects = db.projects) ∧
     (∀ xs, input.projects = some xs →
        (updatedDB now input db).projects =
          mkRows p.id db.nextProjectId (xs.map (fun x => x.payload)) ∧
        (updatedDB now input db).projects.map (fun r => r.data) =
          xs.map (fun x => x.payload) ∧
        ∀ pr ∈ db.projects, pr ∉ (updatedDB now input db).projects)) ∧
    ((input.skills = none → (updatedDB now input db).skills = db.skills) ∧
     (∀ xs, input.skills = some xs →
        (updatedDB now input db).skills = mkRows p.id db.nextSkillId xs ∧
        (updatedDB now input db).skills.map (fun r => r.data) = xs ∧
        ∀ sk ∈ db.skills, sk ∉ (updatedDB now input db).skills)) ∧
    ((input.social_links = none →
        (updatedDB now input db).social_links = db.social_links) ∧
     (∀ xs, input.social_links = some xs →
        (updatedDB now input db).social_links = mkRows p.id db.nextSocialLinkId xs ∧
        (updatedDB now input db).social_links.map (fun r => r.data) = xs ∧
        ∀ l ∈ db.social_links, l ∉ (updatedDB now input db).social_links)) := by
  obtain ⟨hoE, hoW, hoP, hoS, hoL⟩ := wf_owned hwf hp
  have hfE := hwf.2.1.2.1
  have hfW := hwf.2.1.2.2.1
  have hfP := hwf.2.1.2.2.2.1
  have hfS := hwf.2.1.2.2.2.2.1
  have hfL := hwf.2.1.2.2.2.2.2
  have hedu : (updatedDB now input db).education =
      (replaceEducation p.id input.education db.education db.nextEducationId).1 := by
    simp [updatedDB, dbAfter, update_profile, hp]
  have hwork : (updatedDB now input db).work_experience =
      (replaceWork p.id input.work_experience db.work_experience db.nextWorkId).1 := by
    simp [updatedDB, dbAfter, update_profile, hp]
  have hprojects : (updatedDB now input db).projects =
      (replaceProjects p.id input.projects db.projects
        (replaceSkills p.id input.skills db.skills db.project_skills db.nextSkillId).1
        (replaceSkills p.id input.skills db.skills db.project_skills db.nextSkillId).2.1
        db.nextProjectId).1 := by
    simp [updatedDB, dbAfter, update_profile, hp]
  have hskills : (updatedDB now input db).skills =
      (replaceSkills p.id input.skills db.skills db.project_skills db.nextSkillId).1 := by
    simp [updatedDB, dbAfter, update_profile, hp]
  have hsocial : (updatedDB now input db).social_links =
      (replaceSocialLinks p.id input.social_links db.social_links db.nextSocialLinkId).1 := by
    simp [updatedDB, dbAfter, update_profile, hp]
  refine ⟨⟨?_, ?_⟩, ⟨?_, ?_⟩, ⟨?_, ?_⟩, ⟨?_, ?_⟩, ⟨?_, ?_⟩⟩
  · intro h
    rw [hedu]
    simp [replaceEducation, h]
  · intro xs h
    rw [hedu]
    simp only [replaceEducation, h]
    have R := replaced_rows p.id db.nextEducationId db.education xs hoE hfE
    exact ⟨R.1, by rw [R.1]; exact R.2.1, by rw [R.1]; exact R.2.2⟩
  · intro h
    rw [hwork]
    simp [replaceWork, h]
  · intro xs h
    rw [hwork]
    simp only [replaceWork, h]
    have R := replaced_rows p.id db.nextWorkId db.work_experience xs hoW hfW
    exact ⟨R.1, by rw [R.1]; exact R.2.1, by rw [R.1]; exact R.2.2⟩
  · intro h
    rw [hprojects]
    simp [replaceProjects, h]
  · intro xs h
    rw [hprojects]
    simp only [replaceProjects, h]
    have R := replaced_rows p.id db.nextProjectId db.projects
      (xs.map (fun x => x.payload)) hoP hfP
    exact ⟨R.1, by rw [R.1]; exact R.2.1, by rw [R.1]; exact R.2.2⟩
  · intro h
    rw [hskills]
    simp [replaceSkills, h]
  · intro xs h
    rw [hskills]
    simp only [replaceSkills, h]
    have R := replaced_rows p.id db.nextSkillId db.skills xs hoS hfS
    exact ⟨R.1, by rw [R.1]; exact R.2.1, by rw [R.1]; exact R.2.2⟩
  · intro h
    rw [hsocial]
    simp [replaceSocialLinks, h]
  · intro xs h
    rw [hsocial]
    simp only [replaceSocialLinks, h]
    have R := replaced_rows p.id db.nextSocialLinkId db.social_links xs hoL hfL
    exact ⟨R.1, by rw [R.1]; exact R.2.1, by rw [R.1]; exact R.2.2⟩

/-- Witness for C1 at a concrete store and input. -/
theorem C1_put_child_collections_witness :
    (WF exDb ∧ exDb.profile = some exProfile) ∧
    (((c1input.education = none → (updatedDB 7 c1input exDb).education = exDb.education) ∧
      (∀ xs, c1input.education = some xs →
        (updatedDB 7 c1input exDb).education = mkRows exProfile.id exDb.nextEducationId xs ∧
        (updatedDB 7 c1input exDb).education.map (fun r => r.data) = xs ∧
        ∀ e ∈ exDb.education, e ∉ (updatedDB 7 c1input exDb).education)) ∧
     ((c1input.work_experience = none →
        (updatedDB 7 c1input exDb).work_experience = exDb.work_experience) ∧
      (∀ xs, c1input.work_experience = some xs →
        (updatedDB 7 c1input exDb).work_experience = mkRows exProfile.id exDb.nextWorkId xs ∧
        (updatedDB 7 c1input exDb).work_experience.map (fun r => r.data) = xs ∧
        ∀ w ∈ exDb.work_experience, w ∉ (updatedDB 7 c1input exDb).work_experience)) ∧
     ((c1input.projects = none → (updatedDB 7 c1input exDb).projects = exDb.projects) ∧
      (∀ xs, c1input.projects = some xs →
        (updatedDB 7 c1input exDb).projects =
          mkRows exProfile.id exDb.nextProjectId (xs.map (fun x => x.payload)) ∧
        (updatedDB 7 c1input exDb).projects.map (fun r => r.data) =
          xs.map (fun x => x.payload) ∧
        ∀ pr ∈ exDb.projects, pr ∉ (updatedDB 7 c1input exDb).projects)) ∧
     ((c1input.skills = none → (updatedDB 7 c1input exDb).skills = exDb.skills) ∧
      (∀ xs, c1input.skills = some xs →
        (updatedDB 7 c1input exDb).skills = mkRows exProfile.id exDb.nextSkillId xs ∧
        (updatedDB 7 c1input exDb).skills.map (fun r => r.data) = xs ∧
        ∀ sk ∈ exDb.skills, sk ∉ (updatedDB 7 c1input exDb).skills)) ∧
     ((c1input.social_links = none →
        (updatedDB 7 c1input exDb).social_links = exDb.social_links) ∧
      (∀ xs, c1input.social_links = some xs →
        (updatedDB 7 c1input exDb).social_links =
          mkRows exProfile.id exDb.nextSocialLinkId xs ∧
        (updatedDB 7 c1input exDb).social_links.map (fun r => r.data) = xs ∧
        ∀ l ∈ exDb.social_links, l ∉ (updatedDB 7 c1input exDb).social_links))) :=
  ⟨⟨by decide, by decide⟩,
    C1_put_child_collections 7 c1input exDb exProfile (by decide) (by decide)⟩

/-- C4: POST /profile fails with Conflict (HTTP 400) and changes nothing
iff a Profile already exists; when none exists it succeeds (201) and the
created profile is retrievable via GET /profile. -/
theorem C4_create_conflict_or_success (now : Nat) (input : ProfileCreate) (db : DB) :
    (db.profile ≠ none →
        create_profile now input db = .error .conflict ∧
        createdDB now input db = db ∧
        httpStatus .conflict = 400) ∧
    (db.profile = none →
        isOk (create_profile now input db) = true ∧
        read_profile (createdDB now input db) =
          .ok ⟨db.nextProfileId, input.fields, now, now⟩) := by
  constructor
  · intro h
    match hm : db.profile with
    | none => exact absurd hm h
    | some q =>
      refine ⟨?_, ?_, rfl⟩ <;> simp [create_profile, hm, createdDB, dbAfter]
  · intro h
    refine ⟨?_, ?_⟩ <;>
      simp [create_profile, h, createdDB, dbAfter, isOk, read_profile]

/-- Witness for C4: conflict on a populated store, success on the empty one. -/
theorem C4_create_conflict_or_success_witness :
    (create_profile 3 c2input exDb = .error .conflict ∧
     createdDB 3 c2input exDb = exDb ∧
     httpStatus .conflict = 400) ∧
    (isOk (create_profile 3 c2input DB.empty) = true ∧
     read_profile (createdDB 3 c2input DB.empty) =
       .ok ⟨DB.empty.nextProfileId, c2input.fields, 3, 3⟩) :=
  ⟨(C4_create_conflict_or_success 3 c2input exDb).1 (by decide),
   (C4_create_conflict_or_success 3 c2input DB.empty).2 (by decide)⟩

/-- C5: after a successful DELETE /profile no child row of the deleted
profile remains in any of the five child tables, no join row referencing
one of its projects or skills remains, and GET /profile returns NotFound
(404). -/
theorem C5_delete_cascades (db : DB) (p : ProfileRow) (hp : db.profile = some p) :
    isOk (delete_profile db) = true ∧
    (∀ e ∈ (deletedDB db).education, e.profile_id ≠ p.id) ∧
    (∀ w ∈ (deletedDB db).work_experience, w.profile_id ≠ p.id) ∧
    (∀ pr ∈ (deletedDB db).projects, pr.profile_id ≠ p.id) ∧
    (∀ s ∈ (deletedDB db).skills, s.profile_id ≠ p.id) ∧
    (∀ l ∈ (deletedDB db).social_links, l.profile_id ≠ p.id) ∧
    (∀ l ∈ (deletedDB db).project_skills,
        (∀ pr ∈ db.projects, pr.profile_id = p.id → l.1 ≠ pr.id) ∧
        (∀ s ∈ db.skills, s.profile_id = p.id → l.2 ≠ s.id)) ∧
    read_profile (deletedDB db) = .error .notFound ∧
    httpStatus .notFound = 404 := by
  have hD : deletedDB db =
      { db with
        profile := none
        education := db.education.filter (fun e => e.profile_id != p.id)
        work_experience := db.work_experience.filter (fun w => w.profile_id != p.id)
        projects := db.projects.filter (fun pr => pr.profile_id != p.id)
        skills := db.skills.filter (fun s => s.profile_id != p.id)
        social_links := db.social_links.filter (fun l => l.profile_id != p.id)
        project_skills := db.project_skills.filter
          (fun l =>
            !(((db.projects.filter (fun pr => pr.profile_id == p.id)).map
                (fun pr => pr.id)).contains l.1) &&
            !(((db.skills.filter (fun s => s.profile_id == p.id)).map
                (fun s => s.id)).contains l.2)) } := by
    simp [deletedDB, dbAfter, delete_profile, hp]
  refine ⟨by simp [isOk, delete_profile, hp], ?_, ?_, ?_, ?_, ?_, ?_, ?_, rfl⟩
  · rw [hD]
    intro e he
    have := (List.mem_filter.mp he).2
    simpa using this
  · rw [hD]
    intro w hw
    have := (List.mem_filter.mp hw).2
    simpa using this
  · rw [hD]
    intro pr hpr
    have := (List.mem_filter.mp hpr).2
    simpa using this
  · rw [hD]
    intro s hs
    have := (List.mem_filter.mp hs).2
    simpa using this
  · rw [hD]
    intro l hl
    have := (List.mem_filter.mp hl).2
    simpa using this
  · rw [hD]
    intro l hl
    have hc := (List.mem_filter.mp hl).2
    rw [Bool.and_eq_true] at hc
    constructor
    · intro pr hpr hod heq
      have hmem : pr.id ∈ (db.projects.filter (fun pr => pr.profile_id == p.id)).map
          (fun pr => pr.id) :=
        List.mem_map.mpr ⟨pr, List.mem_filter.mpr ⟨hpr, by simp [hod]⟩, rfl⟩
      have := hc.1
      rw [heq] at this
      simp [hmem] at this
    · intro s hs hod heq
      have hmem : s.id ∈ (db.skills.filter (fun s => s.profile_id == p.id)).map
          (fun s => s.id) :=
        List.mem_map.mpr ⟨s, List.mem_filter.mpr ⟨hs, by simp [hod]⟩, rfl⟩
      have := hc.2
      rw [heq] at this
      simp [hmem] at this
  · rw [hD]
    rfl

/-- Witness for C5 at the populated concrete store. -/
theorem C5_delete_cascades_witness :
    exDb.profile = some exProfile ∧
    (isOk (delete_profile exDb) = true ∧
     (∀ e ∈ (deletedDB exDb).education, e.profile_id ≠ exProfile.id) ∧
     (∀ w ∈ (deletedDB exDb).work_experience, w.profile_id ≠ exProfile.id) ∧
     (∀ pr ∈ (deletedDB exDb).projects, pr.profile_id ≠ exProfile.id) ∧
     (∀ s ∈ (deletedDB exDb).skills, s.profile_id ≠ exProfile.id) ∧
     (∀ l ∈ (deletedDB exDb).social_links, l.profile_id ≠ exProfile.id) ∧
     (∀ l ∈ (deletedDB exDb).project_skills,
        (∀ pr ∈ exDb.projects, pr.profile_id = exProfile.id → l.1 ≠ pr.id) ∧
        (∀ s ∈ exDb.skills, s.profile_id = exProfile.id → l.2 ≠ s.id)) ∧
     read_profile (deletedDB exDb) = .error .notFound ∧
     httpStatus .notFound = 404) :=
  ⟨by decide, C5_delete_cascades exDb exProfile (by decide)⟩

/-- C8: a write endpoint rejects a credential pair that does not match the
configured username and password with 401 (challenge) leaving the store
unmodified, and never rejects the correct pair. -/
theorem C8_auth_guard {α : Type} (cfg : AuthConfig) (c : Credentials)
    (handler : DB → Except ApiError (α × DB)) (db : DB) :
    (¬(c.username = cfg.username ∧ c.password = cfg.password) →
        withAuth cfg c handler db = .error .unauthorized ∧
        dbAfter (withAuth cfg c handler db) db = db ∧
        httpStatus .unauthorized = 401) ∧
    ((c.username = cfg.username ∧ c.password = cfg.password) →
        withAuth cfg c handler db = handler db) := by
  constructor
  · intro h
    have hb : (c.username == cfg.username && c.password == cfg.password) = false := by
      by_cases h1 : c.username = cfg.username
      · by_cases h2 : c.password = cfg.password
        · exact absurd ⟨h1, h2⟩ h
        · simp [h1, h2]
      · simp [h1]
    refine ⟨?_, ?_, rfl⟩ <;> simp [withAuth, verify_credentials, hb, dbAfter]
  · rintro ⟨h1, h2⟩
    simp [withAuth, verify_credentials, h1, h2]

/-- Witness for C8: wrong password refused with the store intact, correct
pair passed through to the handler. -/
theorem C8_auth_guard_witness :
    (withAuth exCfg badCreds delete_profile exDb = .error .unauthorized ∧
     dbAfter (withAuth exCfg badCreds delete_profile exDb) exDb = exDb ∧
     httpStatus .unauthorized = 401) ∧
    withAuth exCfg goodCreds delete_profile exDb = delete_profile exDb :=
  ⟨(C8_auth_guard exCfg badCreds delete_profile exDb).1 (by decide),
   (C8_auth_guard exCfg goodCreds delete_profile exDb).2 (by decide)⟩

/-- C9 (amended): POST /profile and PUT /profile stamp the Profile's
updated_at with the mutation time; creating a child record (POST
/education) succeeds without touching the Profile row, so updated_at is
left unchanged. -/
theorem C9_updated_at (now : Nat) (cin : ProfileCreate) (uin : ProfileUpdate)
    (ein : EducationInput) (db : DB) (p : ProfileRow) :
    (db.profile = none →
        ∀ q ∈ (createdDB now cin db).profile, q.updated_at = now) ∧
    (db.profile = some p →
        ∀ q ∈ (updatedDB now uin db).profile, q.updated_at = now) ∧
    (db.profile = some p →
        (dbAfter (create_education ein db) db).profile = db.profile ∧
        isOk (create_education ein db) = true) := by
  refine ⟨?_, ?_, ?_⟩
  · intro h q hq
    simp [createdDB, dbAfter, create_profile, h] at hq
    simp [← hq]
  · intro h q hq
    simp [updatedDB, dbAfter, update_profile, h] at hq
    simp [← hq]
  · intro h
    constructor <;> simp [dbAfter, create_education, h, isOk]

/-- Witness for C9: create on the empty store, update and child-create on
the populated one. -/
theorem C9_updated_at_witness :
    (∀ q ∈ (createdDB 3 c2input DB.empty).profile, q.updated_at = 3) ∧
    (∀ q ∈ (updatedDB 3 c1input exDb).profile, q.updated_at = 3) ∧
    ((dbAfter (create_education eduIn exDb) exDb).profile = exDb.profile ∧
     isOk (create_education eduIn exDb) = true) :=
  ⟨(C9_updated_at 3 c2input c1input eduIn DB.empty exProfile).1 (by decide),
   (C9_updated_at 3 c2input c1input eduIn exDb exProfile).2.1 (by decide),
   (C9_updated_at 3 c2input c1input eduIn exDb exProfile).2.2 (by decide)⟩

/-- Counterexample for C9 as stated: POST /education succeeds, adds a row,
and leaves the Profile row (updated_at = 5) untouched — the timestamp is
not refreshed by child-record mutations. -/
theorem C9_counterexample :
    isOk (create_education eduIn exDb) = true ∧
    (dbAfter (create_education eduIn exDb) exDb).education.length =
      exDb.education.length + 1 ∧
    (dbAfter (create_education eduIn exDb) exDb).profile = some exProfile ∧
    exProfile.updated_at = 5 := by decide

/-- C10: with no Profile stored, GET /projects and GET /skills/top return
an empty list, while the education, work-experience, skills and
social-links list endpoints return NotFound (404). -/
theorem C10_no_profile_reads (db : DB) (limit : Nat)
    (hwf : WF db) (hnone : db.profile = none) :
    get_projects none none db = [] ∧
    get_top_skills limit db = [] ∧
    read_education db = .error .notFound ∧
    read_work_experience db = .error .notFound ∧
    read_skills db = .error .notFound ∧
    read_social_links db = .error .notFound ∧
    httpStatus .notFound = 404 := by
  obtain ⟨hE, hW, hP, hS, hL⟩ := wf_empty_children hwf hnone
  refine ⟨?_, ?_, ?_, ?_, ?_, ?_, rfl⟩
  · simp [get_projects, hP]
  · simp [get_top_skills, hS, sortLe]
  · simp [read_education, hnone]
  · simp [read_work_experience, hnone]
  · simp [read_skills, hnone]
  · simp [read_social_links, hnone]

/-- Witness for C10 on the empty store. -/
theorem C10_no_profile_reads_witness :
    (WF DB.empty ∧ DB.empty.profile = none) ∧
    (get_projects none none DB.empty = [] ∧
     get_top_skills 10 DB.empty = [] ∧
     read_education DB.empty = .error .notFound ∧
     read_work_experience DB.empty = .error .notFound ∧
     read_skills DB.empty = .error .notFound ∧
     read_social_links DB.empty = .error .notFound ∧
     httpStatus .notFound = 404) :=
  ⟨⟨by decide, by decide⟩, C10_no_profile_reads DB.empty 10 (by decide) (by decide)⟩

/-- C2: a nested create stores exactly as many Education, WorkExperience,
Skill and SocialLink rows for the new profile as supplied, and each
created project is linked exactly to the supplied skill ids that were
actually created by the same call. -/
theorem C2_create_nested_aggregate (now : Nat) (input : ProfileCreate) (db : DB)
    (hwf : WF db) (hnone : db.profile = none) :
    ((createdDB now input db).education.filter
        (fun e => e.profile_id == db.nextProfileId)).length = input.education.length ∧
    ((createdDB now input db).work_experience.filter
        (fun w => w.profile_id == db.nextProfileId)).length =
      input.work_experience.length ∧
    ((createdDB now input db).skills.filter
        (fun s => s.profile_id == db.nextProfileId)).length = input.skills.length ∧
    ((createdDB now input db).social_links.filter
        (fun l => l.profile_id == db.nextProfileId)).length =
      input.social_links.length ∧
    (∀ i p, nth input.projects i = some p → ∀ sid : Nat,
        ((db.nextProjectId + i, sid) ∈ (createdDB now input db).project_skills ↔
          (sid ∈ p.skill_ids ∧
           sid ∈ (createdDB now input db).skills.map (fun s => s.id)))) := by
  obtain ⟨hE, hW, hP, hS, hL⟩ := wf_empty_children hwf hnone
  have hLinks := wf_links_empty hwf hnone
  have hedu : (createdDB now input db).education =
      mkRows db.nextProfileId db.nextEducationId input.education := by
    simp [createdDB, dbAfter, create_profile, hnone, hE]
  have hwork : (createdDB now input db).work_experience =
      mkRows db.nextProfileId db.nextWorkId input.work_experience := by
    simp [createdDB, dbAfter, create_profile, hnone, hW]
  have hskills : (createdDB now input db).skills =
      mkRows db.nextProfileId db.nextSkillId input.skills := by
    simp [createdDB, dbAfter, create_profile, hnone, hS]
  have hsocial : (createdDB now input db).social_links =
      mkRows db.nextProfileId db.nextSocialLinkId input.social_links := by
    simp [createdDB, dbAfter, create_profile, hnone, hL]
  have hps : (createdDB now input db).project_skills =
      projectLinks db.nextProjectId
        (mkRows db.nextProfileId db.nextSkillId input.skills) input.projects := by
    simp [createdDB, dbAfter, create_profile, hnone, hS, hLinks]
  refine ⟨?_, ?_, ?_, ?_, ?_⟩
  · rw [hedu, filter_keep_profile mkRows_profile_id, mkRows_length]
  · rw [hwork, filter_keep_profile mkRows_profile_id, mkRows_length]
  · rw [hskills, filter_keep_profile mkRows_profile_id, mkRows_length]
  · rw [hsocial, filter_keep_profile mkRows_profile_id, mkRows_length]
  · intro i p hp sid
    rw [hps, hskills, pair_mem_projectLinks hp]
    constructor
    · rintro ⟨h1, sk, hsk, hid⟩
      exact ⟨h1, List.mem_map.mpr ⟨sk, hsk, hid⟩⟩
    · rintro ⟨h1, h2⟩
      obtain ⟨sk, hsk, hid⟩ := List.mem_map.mp h2
      exact ⟨h1, sk, hsk, hid⟩

/-- Witness for C2: the nested create on the empty store. -/
theorem C2_create_nested_aggregate_witness :
    (WF DB.empty ∧ DB.empty.profile = none) ∧
    (((createdDB 3 c2input DB.empty).education.filter
        (fun e => e.profile_id == DB.empty.nextProfileId)).length =
       c2input.education.length ∧
     ((createdDB 3 c2input DB.empty).work_experience.filter
        (fun w => w.profile_id == DB.empty.nextProfileId)).length =
       c2input.work_experience.length ∧
     ((createdDB 3 c2input DB.empty).skills.filter
        (fun s => s.profile_id == DB.empty.nextProfileId)).length =
       c2input.skills.length ∧
     ((createdDB 3 c2input DB.empty).social_links.filter
        (fun l => l.profile_id == DB.empty.nextProfileId)).length =
       c2input.social_links.length ∧
     (∀ i p, nth c2input.projects i = some p → ∀ sid : Nat,
        ((DB.empty.nextProjectId + i, sid) ∈ (createdDB 3 c2input DB.empty).project_skills ↔
          (sid ∈ p.skill_ids ∧
           sid ∈ (createdDB 3 c2input DB.empty).skills.map (fun s => s.id))))) :=
  ⟨⟨by decide, by decide⟩,
   C2_create_nested_aggregate 3 c2input DB.empty (by decide) (by decide)⟩

/-- C3 (amended): during PUT /profile, when the update supplies both a
skills list and a projects list, a skill id of a supplied project that is
not among the skill ids newly inserted by this same update resolves to no
join-table link; with the skills field absent, ids resolve against the
surviving pre-existing skill rows instead. -/
theorem C3_unknown_skill_ids_no_link (now : Nat) (input : ProfileUpdate) (db : DB)
    (p : ProfileRow) (sks : List SkillInput) (ps : List ProjectCreate)
    (hwf : WF db) (hp : db.profile = some p)
    (hsk : input.skills = some sks) (hpr : input.projects = some ps) :
    ∀ i pc, nth ps i = some pc → ∀ sid : Nat,
      sid ∉ (updatedDB now input db).skills.map (fun s => s.id) →
      (db.nextProjectId + i, sid) ∉ (updatedDB now input db).project_skills := by
  obtain ⟨hoE, hoW, hoP, hoS, hoL⟩ := wf_owned hwf hp
  have hskills : (updatedDB now input db).skills = mkRows p.id db.nextSkillId sks := by
    simp [updatedDB, dbAfter, update_profile, hp, replaceSkills, hsk,
      filter_same_profile hoS]
  intro i pc hnth sid hnot hmem
  rw [hskills] at hnot
  have hps : (updatedDB now input db).project_skills =
      ((db.project_skills.filter
          (fun l => !(((db.skills.filter (fun s => s.profile_id == p.id)).map
              (fun s => s.id)).contains l.2))).filter
        (fun l => !(((db.projects.filter (fun pr => pr.profile_id == p.id)).map
            (fun pr => pr.id)).contains l.1)))
      ++ projectLinks db.nextProjectId (mkRows p.id db.nextSkillId sks) ps := by
    simp [updatedDB, dbAfter, update_profile, hp, replaceSkills, replaceProjects,
      hsk, hpr, filter_same_profile hoS]
  rw [hps] at hmem
  rcases List.mem_append.mp hmem with h | h
  · have h0 := (List.mem_filter.mp h).1
    have h1 := (List.mem_filter.mp h0).1
    have h2 := wf_links_fst_lt hwf _ h1
    simp only [] at h2
    omega
  · obtain ⟨-, sk, hsk2, hid⟩ := (pair_mem_projectLinks hnth).mp h
    exact hnot (List.mem_map.mpr ⟨sk, hsk2, hid⟩)

/-- Witness for C3 (amended): replacing skills with ["Rust"] (new id 2)
and projects with one project referencing ids 1 and 2 — the stale id 1
yields no link. -/
theorem C3_unknown_skill_ids_no_link_witness :
    (WF exDb ∧ exDb.profile = some exProfile ∧
     c3winput.skills = some [{ name := "Rust" }] ∧
     c3winput.projects = some [{ payload := { name := "P2" }, skill_ids := [1, 2] }]) ∧
    (∀ i pc, nth [({ payload := { name := "P2" }, skill_ids := [1, 2] } : ProjectCreate)] i
        = some pc → ∀ sid : Nat,
      sid ∉ (updatedDB 7 c3winput exDb).skills.map (fun s => s.id) →
      (exDb.nextProjectId + i, sid) ∉ (updatedDB 7 c3winput exDb).project_skills) :=
  ⟨⟨by decide, by decide, by decide, by decide⟩,
   C3_unknown_skill_ids_no_link 7 c3winput exDb exProfile
     [{ name := "Rust" }] [{ payload := { name := "P2" }, skill_ids := [1, 2] }]
     (by decide) (by decide) (by decide) (by decide)⟩

/-- Counterexample to C3 as stated: an update that supplies projects but
no skills list inserts no new skill, yet the supplied project's reference
to the pre-existing skill id 1 does create a join link. -/
theorem C3_counterexample :
    c3input.skills = none ∧
    c3input.projects = some [{ payload := { name := "P2" }, skill_ids := [1] }] ∧
    isOk (update_profile 7 c3input exDb) = true ∧
    (updatedDB 7 c3input exDb).skills = exDb.skills ∧
    (updatedDB 7 c3input exDb).project_skills = [(2, 1)] := by decide

/-! ## Supporting lemmas: the grouped project count -/

theorem sum_map_ones {α : Type} (f : α → Nat) (l : List α) (h : ∀ x ∈ l, f x = 1) :
    (l.map f).sum = l.length := by
  induction l with
  | nil => rfl
  | cons x xs ih =>
    simp only [List.map_cons, List.sum_cons, List.length_cons,
      h x (List.mem_cons_self x xs), ih (fun y hy => h y (List.mem_cons_of_mem x hy))]
    omega

theorem filter_id_length_one {A : Type} {l : List (Row A)} {a : Nat}
    (hnd : (l.map (fun r => r.id)).Nodup) (hex : ∃ r ∈ l, r.id = a) :
    (l.filter (fun r => r.id == a)).length = 1 := by
  induction l with
  | nil =>
    obtain ⟨r, hr, -⟩ := hex
    cases hr
  | cons x xs ih =>
    rw [List.map_cons, List.nodup_cons] at hnd
    obtain ⟨hx, hxs⟩ := hnd
    by_cases hxa : x.id = a
    · have hnil : xs.filter (fun r => r.id == a) = [] := by
        rw [List.filter_eq_nil_iff]
        intro r hr hbeq
        have : r.id = a := by simpa using hbeq
        exact hx (List.mem_map.mpr ⟨r, hr, by omega⟩)
      simp [List.filter_cons, hxa, hnil]
    · have hcond : (x.id == a) = false := by simp [hxa]
      rw [List.filter_cons, hcond]
      simp only [Bool.false_eq_true, if_false]
      apply ih hxs
      obtain ⟨r, hr, hra⟩ := hex
      rcases List.mem_cons.mp hr with heq | h
      · exact absurd (heq ▸ hra) hxa
      · exact ⟨r, h, hra⟩

theorem projectCount_eq_distinct {db : DB} (hwf : WF db) (sk : SkillRow) :
    projectCount db sk =
      (db.projects.filter (fun pr => (pr.id, sk.id) ∈ db.project_skills)).length := by
  obtain ⟨hjoin, hnodupLinks⟩ := hwf.2.2.1
  have hndProj : (db.projects.map (fun pr => pr.id)).Nodup := hwf.2.2.2.1
  have h1 : ∀ l ∈ db.project_skills.filter (fun l => l.2 == sk.id),
      (db.projects.filter (fun pr => pr.id == l.1)).length = 1 := by
    intro l hl
    have hl0 := (List.mem_filter.mp hl).1
    obtain ⟨⟨pr, hpr, hid⟩, -⟩ := hjoin l hl0
    exact filter_id_length_one hndProj ⟨pr, hpr, hid⟩
  have h2 : projectCount db sk =
      (db.project_skills.filter (fun l => l.2 == sk.id)).length := by
    unfold projectCount
    exact sum_map_ones _ _ h1
  have hAnd : (db.project_skills.filter (fun l => l.2 == sk.id)).Nodup :=
    List.Nodup.sublist (List.filter_sublist _) hnodupLinks
  have hBnd : ((db.projects.filter
      (fun pr => (pr.id, sk.id) ∈ db.project_skills)).map
        (fun pr => (pr.id, sk.id))).Nodup := by
    have hsub : ((db.projects.filter
        (fun pr => (pr.id, sk.id) ∈ db.project_skills)).map
          (fun pr => pr.id)).Nodup :=
      List.Nodup.sublist (List.Sublist.map _ (List.filter_sublist _)) hndProj
    have hmapped := List.Nodup.map
      (f := fun a : Nat => (a, sk.id)) (fun a b hab => congrArg Prod.fst hab) hsub
    rw [List.map_map] at hmapped
    exact hmapped
  have hmemAB : ∀ x, x ∈ db.project_skills.filter (fun l => l.2 == sk.id) ↔
      x ∈ (db.projects.filter (fun pr => (pr.id, sk.id) ∈ db.project_skills)).map
        (fun pr => (pr.id, sk.id)) := by
    intro x
    obtain ⟨a, b⟩ := x
    constructor
    · intro hx
      obtain ⟨hx0, hx2⟩ := List.mem_filter.mp hx
      have hb : b = sk.id := by simpa using hx2
      obtain ⟨⟨pr, hpr, hid⟩, -⟩ := hjoin (a, b) hx0
      apply List.mem_map.mpr
      refine ⟨pr, List.mem_filter.mpr ⟨hpr, ?_⟩, ?_⟩
      · rw [decide_eq_true_iff, hid, ← hb]
        exact hx0
      · rw [hid, ← hb]
    · intro hx
      obtain ⟨pr, hprf, heq⟩ := List.mem_map.mp hx
      obtain ⟨hpr, hdec⟩ := List.mem_filter.mp hprf
      have hin : (pr.id, sk.id) ∈ db.project_skills := of_decide_eq_true hdec
      rw [← heq]
      exact List.mem_filter.mpr ⟨hin, by simp⟩
  have hperm := (List.perm_ext_iff_of_nodup hAnd hBnd).mpr hmemAB
  rw [h2, hperm.length_eq, List.length_map]

/-- C6: GET /skills/top returns at most `limit` rows, sorted non-increasing
by project_count; each row's count is the number of distinct projects
linked through the join table, and a zero-count skill appears whenever all
skills fit within the limit. -/
theorem C6_top_skills (limit : Nat) (db : DB) (hwf : WF db)
    (_hlo : 1 ≤ limit) (_hhi : limit ≤ 50) :
    (get_top_skills limit db).length ≤ limit ∧
    List.Pairwise (fun a b : SkillRow × Nat => b.2 ≤ a.2) (get_top_skills limit db) ∧
    (∀ x ∈ get_top_skills limit db,
        x.2 = (db.projects.filter
          (fun pr => (pr.id, x.1.id) ∈ db.project_skills)).length) ∧
    (db.skills.length ≤ limit →
      ∀ sk ∈ db.skills,
        (db.projects.filter (fun pr => (pr.id, sk.id) ∈ db.project_skills)).length = 0 →
        (sk, 0) ∈ get_top_skills limit db) := by
  have htot : ∀ a b : SkillRow × Nat,
      (decide (b.2 ≤ a.2)) = true ∨ (decide (a.2 ≤ b.2)) = true := by
    intro a b
    rcases Nat.le_total b.2 a.2 with h | h
    · exact Or.inl (decide_eq_true h)
    · exact Or.inr (decide_eq_true h)
  have htrans : ∀ a b c : SkillRow × Nat,
      (decide (b.2 ≤ a.2)) = true → (decide (c.2 ≤ b.2)) = true →
      (decide (c.2 ≤ a.2)) = true := by
    intro a b c h1 h2
    exact decide_eq_true (Nat.le_trans (of_decide_eq_true h2) (of_decide_eq_true h1))
  refine ⟨?_, ?_, ?_, ?_⟩
  · exact List.length_take_le _ _
  · have hp := pairwise_sortLe (fun a b : SkillRow × Nat => decide (b.2 ≤ a.2))
      htot htrans (db.skills.map (fun sk => (sk, projectCount db sk)))
    have hps := List.Pairwise.sublist (List.take_sublist limit _) hp
    exact hps.imp (fun h => of_decide_eq_true h)
  · intro x hx
    have hx1 : x ∈ sortLe (fun a b : SkillRow × Nat => decide (b.2 ≤ a.2))
        (db.skills.map (fun sk => (sk, projectCount db sk))) :=
      (List.take_sublist limit _).subset hx
    have hx2 := (mem_sortLe _ _ _).mp hx1
    obtain ⟨sk, hsk, heq⟩ := List.mem_map.mp hx2
    rw [← heq]
    exact projectCount_eq_distinct hwf sk
  · intro hfit sk hsk h0
    have hcount : projectCount db sk = 0 := by
      rw [projectCount_eq_distinct hwf sk, h0]
    have hmem : (sk, 0) ∈ db.skills.map (fun sk => (sk, projectCount db sk)) :=
      List.mem_map.mpr ⟨sk, hsk, by rw [hcount]⟩
    have hmem2 := (mem_sortLe (fun a b : SkillRow × Nat => decide (b.2 ≤ a.2)) _ _).mpr hmem
    unfold get_top_skills
    rw [List.take_of_length_le]
    · exact hmem2
    · rw [length_sortLe, List.length_map]
      exact hfit

/-- Witness for C6 on the store with skill Go (one project) and React
(none), limit 5. -/
theorem C6_top_skills_witness :
    (WF c6db ∧ 1 ≤ 5 ∧ 5 ≤ 50) ∧
    ((get_top_skills 5 c6db).length ≤ 5 ∧
     List.Pairwise (fun a b : SkillRow × Nat => b.2 ≤ a.2) (get_top_skills 5 c6db) ∧
     (∀ x ∈ get_top_skills 5 c6db,
        x.2 = (c6db.projects.filter
          (fun pr => (pr.id, x.1.id) ∈ c6db.project_skills)).length) ∧
     (c6db.skills.length ≤ 5 →
       ∀ sk ∈ c6db.skills,
         (c6db.projects.filter
           (fun pr => (pr.id, sk.id) ∈ c6db.project_skills)).length = 0 →
         (sk, 0) ∈ get_top_skills 5 c6db)) :=
  ⟨⟨by decide, by decide, by decide⟩,
   C6_top_skills 5 c6db (by decide) (by decide) (by decide)⟩

/-! ## Supporting lemmas: LIKE patterns and substring containment -/

theorem likeMatch_cons_eq (p : Char) (ps t : List Char) :
    likeMatch (p :: ps) t =
      if p = '\\' then
        match ps, t with
        | [], _ => false
        | _ :: _, [] => false
        | e :: ps2, c :: ts => (e == c) && likeMatch ps2 ts
      else if p = '%' then likeStar (likeMatch ps) t
      else
        match t with
        | [] => false
        | c :: ts => (if p = '_' then true else p == c) && likeMatch ps ts := by
  conv_lhs => rw [likeMatch.eq_def]

theorem toNat_ofNat_valid (n : Nat) (h : n.isValidChar) : (Char.ofNat n).toNat = n := by
  simp only [Char.ofNat, dif_pos h, Char.toNat, Char.ofNatAux]
  rfl

theorem toLower_eq_percent {c : Char} (h : c.toLower = '%') : c = '%' := by
  unfold Char.toLower at h
  by_cases hc : c.toNat ≥ 65 ∧ c.toNat ≤ 90
  · rw [if_pos hc] at h
    have h37 : (Char.ofNat (c.toNat + 32)).toNat = 37 := by rw [h]; rfl
    have hv : (c.toNat + 32).isValidChar := Or.inl (by omega)
    rw [toNat_ofNat_valid _ hv] at h37
    omega
  · rw [if_neg hc] at h
    exact h

theorem toLower_eq_underscore {c : Char} (h : c.toLower = '_') : c = '_' := by
  unfold Char.toLower at h
  by_cases hc : c.toNat ≥ 65 ∧ c.toNat ≤ 90
  · rw [if_pos hc] at h
    have h95 : (Char.ofNat (c.toNat + 32)).toNat = 95 := by rw [h]; rfl
    have hv : (c.toNat + 32).isValidChar := Or.inl (by omega)
    rw [toNat_ofNat_valid _ hv] at h95
    omega
  · rw [if_neg hc] at h
    exact h

theorem toLower_eq_backslash {c : Char} (h : c.toLower = '\\') : c = '\\' := by
  unfold Char.toLower at h
  by_cases hc : c.toNat ≥ 65 ∧ c.toNat ≤ 90
  · rw [if_pos hc] at h
    have h92 : (Char.ofNat (c.toNat + 32)).toNat = 92 := by rw [h]; rfl
    have hv : (c.toNat + 32).isValidChar := Or.inl (by omega)
    rw [toNat_ofNat_valid _ hv] at h92
    omega
  · rw [if_neg hc] at h
    exact h

theorem pyLower_no_wildcards {q : String} (h1 : '%' ∉ q.data) (h2 : '_' ∉ q.data)
    (h3 : '\\' ∉ q.data) :
    '%' ∉ pyLower q ∧ '_' ∉ pyLower q ∧ '\\' ∉ pyLower q := by
  refine ⟨?_, ?_, ?_⟩ <;> intro hmem
  · obtain ⟨c, hc, hceq⟩ := List.mem_map.mp hmem
    exact h1 (toLower_eq_percent hceq ▸ hc)
  · obtain ⟨c, hc, hceq⟩ := List.mem_map.mp hmem
    exact h2 (toLower_eq_underscore hceq ▸ hc)
  · obtain ⟨c, hc, hceq⟩ := List.mem_map.mp hmem
    exact h3 (toLower_eq_backslash hceq ▸ hc)

theorem listPrefix_iff (p : List Char) : ∀ t, listPrefix p t = true ↔ ∃ u, p ++ u = t := by
  induction p with
  | nil =>
    intro t
    simp [listPrefix]
  | cons a ps ih =>
    intro t
    cases t with
    | nil =>
      simp [listPrefix]
    | cons b ts =>
      rw [listPrefix, Bool.and_eq_true, beq_iff_eq, ih ts]
      constructor
      · rintro ⟨rfl, u, rfl⟩
        exact ⟨u, rfl⟩
      · rintro ⟨u, huv⟩
        injection huv with hab hrest
        exact ⟨hab, u, hrest⟩

theorem listSub_iff (p : List Char) : ∀ t, listSub p t = true ↔ ∃ u v, u ++ (p ++ v) = t := by
  intro t
  induction t with
  | nil =>
    rw [listSub, listPrefix_iff]
    constructor
    · rintro ⟨u, hu⟩
      exact ⟨[], u, by simpa using hu⟩
    · rintro ⟨u, v, huv⟩
      obtain ⟨hu, hpv⟩ := List.append_eq_nil.mp huv
      exact ⟨v, by rw [hpv]⟩
  | cons c ts ih =>
    rw [listSub, Bool.or_eq_true, listPrefix_iff, ih]
    constructor
    · rintro (⟨u, hu⟩ | ⟨u, v, huv⟩)
      · exact ⟨[], u, by simpa using hu⟩
      · exact ⟨c :: u, v, by rw [← huv]; rfl⟩
    · rintro ⟨u, v, huv⟩
      cases u with
      | nil =>
        left
        exact ⟨v, by simpa using huv⟩
      | cons x us =>
        right
        injection huv with h1 h2
        exact ⟨us, v, h2⟩

theorem likeStar_iff (f : List Char → Bool) (t : List Char) :
    likeStar f t = true ↔ ∃ u v, u ++ v = t ∧ f v = true := by
  induction t with
  | nil =>
    rw [likeStar]
    constructor
    · intro h
      exact ⟨[], [], rfl, h⟩
    · rintro ⟨u, v, huv, hf⟩
      obtain ⟨rfl, rfl⟩ := List.append_eq_nil.mp huv
      exact hf
  | cons c ts ih =>
    rw [likeStar, Bool.or_eq_true, ih]
    constructor
    · rintro (h | ⟨u, v, huv, hf⟩)
      · exact ⟨[], c :: ts, rfl, h⟩
      · exact ⟨c :: u, v, by rw [← huv]; rfl, hf⟩
    · rintro ⟨u, v, huv, hf⟩
      cases u with
      | nil =>
        left
        have hv : v = c :: ts := by simpa using huv
        rw [hv] at hf
        exact hf
      | cons x us =>
        right
        injection huv with h1 h2
        exact ⟨us, v, h2, hf⟩

theorem likeMatch_lit_iff (p : List Char) (hp1 : '%' ∉ p) (hp2 : '_' ∉ p)
    (hp3 : '\\' ∉ p) :
    ∀ t, likeMatch (p ++ ['%']) t = true ↔ ∃ v, p ++ v = t := by
  induction p with
  | nil =>
    intro t
    have hpb : ¬(('%' : Char) = '\\') := by decide
    have hstar : likeMatch ([] ++ ['%']) t = likeStar (likeMatch []) t := by
      rw [List.nil_append, likeMatch_cons_eq, if_neg hpb, if_pos rfl]
    rw [hstar, likeStar_iff]
    constructor
    · intro h
      exact ⟨t, rfl⟩
    · intro h
      exact ⟨t, [], by simp, rfl⟩
  | cons a ps ih =>
    have ha1 : a ≠ '%' := fun h => hp1 (h ▸ List.mem_cons_self a ps)
    have ha2 : a ≠ '_' := fun h => hp2 (h ▸ List.mem_cons_self a ps)
    have ha3 : a ≠ '\\' := fun h => hp3 (h ▸ List.mem_cons_self a ps)
    have hp1' : '%' ∉ ps := fun h => hp1 (List.mem_cons_of_mem a h)
    have hp2' : '_' ∉ ps := fun h => hp2 (List.mem_cons_of_mem a h)
    have hp3' : '\\' ∉ ps := fun h => hp3 (List.mem_cons_of_mem a h)
    intro t
    rw [List.cons_append, likeMatch_cons_eq, if_neg ha3, if_neg ha1]
    cases t with
    | nil =>
      constructor
      · intro h
        cases h
      · rintro ⟨v, hv⟩
        cases hv
    | cons c ts =>
      show ((if a = '_' then true else a == c) && likeMatch (ps ++ ['%']) ts) = true ↔ _
      rw [if_neg ha2, Bool.and_eq_true, beq_iff_eq, ih hp1' hp2' hp3' ts]
      constructor
      · rintro ⟨rfl, v, rfl⟩
        exact ⟨v, rfl⟩
      · rintro ⟨v, hv⟩
        injection hv with h1 h2
        exact ⟨h1, v, h2⟩

theorem likeMatch_pattern_iff (p : List Char) (hp1 : '%' ∉ p) (hp2 : '_' ∉ p)
    (hp3 : '\\' ∉ p) (t : List Char) :
    likeMatch ('%' :: (p ++ ['%'])) t = true ↔ ∃ u v, u ++ (p ++ v) = t := by
  have hpb : ¬(('%' : Char) = '\\') := by decide
  rw [likeMatch_cons_eq, if_neg hpb, if_pos rfl, likeStar_iff]
  constructor
  · rintro ⟨u, v, huv, hf⟩
    obtain ⟨w, hw⟩ := (likeMatch_lit_iff p hp1 hp2 hp3 v).mp hf
    exact ⟨u, w, by rw [← huv, ← hw]⟩
  · rintro ⟨u, w, h⟩
    exact ⟨u, p ++ w, h, (likeMatch_lit_iff p hp1 hp2 hp3 (p ++ w)).mpr ⟨w, rfl⟩⟩

theorem likeMatch_eq_containsLower {q : String} (h1 : '%' ∉ q.data)
    (h2 : '_' ∉ q.data) (h3 : '\\' ∉ q.data) (s : String) :
    likeMatch (likePattern q) (pyLower s) = containsLower q s := by
  obtain ⟨hp1, hp2, hp3⟩ := pyLower_no_wildcards h1 h2 h3
  rw [Bool.eq_iff_iff, likePattern,
    likeMatch_pattern_iff (pyLower q) hp1 hp2 hp3, containsLower, listSub_iff]

theorem optLike_eq_optContains {q : String} (h1 : '%' ∉ q.data)
    (h2 : '_' ∉ q.data) (h3 : '\\' ∉ q.data) (o : Option String) :
    optLike (likePattern q) o = optContains q o := by
  cases o with
  | none => rfl
  | some s => exact likeMatch_eq_containsLower h1 h2 h3 s

theorem containsLower_ne_empty {q s : String} (hq : q ≠ "")
    (h : containsLower q s = true) : s ≠ "" := by
  rw [containsLower, listSub_iff] at h
  obtain ⟨u, v, huv⟩ := h
  intro hs
  have hqd : q.data ≠ [] := by
    intro hd
    apply hq
    cases q
    simp_all
  have : pyLower s = [] := by rw [hs]; rfl
  rw [this] at huv
  obtain ⟨-, h2⟩ := List.append_eq_nil.mp huv
  obtain ⟨h3, -⟩ := List.append_eq_nil.mp h2
  exact hqd (by simpa [pyLower] using h3)

theorem row_eq_of_id_eq {A : Type} {l : List (Row A)}
    (hnd : (l.map (fun r => r.id)).Nodup)
    {r1 r2 : Row A} (h1 : r1 ∈ l) (h2 : r2 ∈ l) (heq : r1.id = r2.id) : r1 = r2 :=
  List.inj_on_of_nodup_map hnd h1 h2 heq

/-- C7 (amended): for every non-empty query containing no SQL LIKE
wildcard (% or _) and no LIKE escape character (backslash), /search
returns exactly the projects whose
name or description case-insensitively contains the query and the work
experiences whose position, description or company contains it; every
result scores at least 1.0, a title-field (project name / work position)
substring match scores exactly 1.5 and a match only in the other searched
fields scores exactly 1.0, and the list is sorted non-increasing by
relevance_score. Queries containing % or _ are interpreted as LIKE
wildcards by the filter instead, and a backslash acts as the LIKE escape
character. -/
theorem C7_search_exact_scored (q : String) (db : DB) (hwf : WF db)
    (hq : q ≠ "") (hw1 : '%' ∉ q.data) (hw2 : '_' ∉ q.data)
    (hw3 : '\\' ∉ q.data) :
    (∀ pr ∈ db.projects,
        (projMatch q pr = true ↔
          ∃ r ∈ search_content q db, r.type = "project" ∧ r.id = pr.id)) ∧
    (∀ w ∈ db.work_experience,
        (workMatch q w = true ↔
          ∃ r ∈ search_content q db, r.type = "work_experience" ∧ r.id = w.id)) ∧
    (∀ r ∈ search_content q db, (1 : Rat) ≤ r.relevance_score) ∧
    (∀ pr ∈ db.projects, ∀ r ∈ search_content q db,
        r.type = "project" → r.id = pr.id →
        ((containsLower q pr.data.name = true → r.relevance_score = 3/2) ∧
         (containsLower q pr.data.name = false → r.relevance_score = 1))) ∧
    (∀ w ∈ db.work_experience, ∀ r ∈ search_content q db,
        r.type = "work_experience" → r.id = w.id →
        ((containsLower q w.data.position = true → r.relevance_score = 3/2) ∧
         (containsLower q w.data.position = false → r.relevance_score = 1))) ∧
    List.Pairwise (fun a b : SearchResult => b.relevance_score ≤ a.relevance_score)
      (search_content q db) := by
  have hndP : (db.projects.map (fun r => r.id)).Nodup := hwf.2.2.2.1
  have hndW : (db.work_experience.map (fun r => r.id)).Nodup := hwf.2.2.2.2.2.2.1
  have hrw : search_content q db =
      sortLe (fun a b => decide (b.relevance_score ≤ a.relevance_score))
        ((db.projects.filter (projMatch q)).map (projResult q) ++
         (db.work_experience.filter (workMatch q)).map (workResult q)) := by
    simp only [search_content, likeMatch_eq_containsLower hw1 hw2 hw3,
      optLike_eq_optContains hw1 hw2 hw3]
    rfl
  have hmemout : ∀ r, r ∈ search_content q db ↔
      ((∃ pr, pr ∈ db.projects.filter (projMatch q) ∧ projResult q pr = r) ∨
       (∃ w, w ∈ db.work_experience.filter (workMatch q) ∧ workResult q w = r)) := by
    intro r
    rw [hrw, mem_sortLe, List.mem_append, List.mem_map, List.mem_map]
  refine ⟨?_, ?_, ?_, ?_, ?_, ?_⟩
  · intro pr hpr
    constructor
    · intro hm
      exact ⟨projResult q pr,
        (hmemout _).mpr (Or.inl ⟨pr, List.mem_filter.mpr ⟨hpr, hm⟩, rfl⟩), rfl, rfl⟩
    · rintro ⟨r, hr, htype, hid⟩
      rcases (hmemout r).mp hr with ⟨pr', hpr', hval⟩ | ⟨w, hw', hval⟩
      · obtain ⟨hpr'm, hmatch⟩ := List.mem_filter.mp hpr'
        have hid' : pr'.id = pr.id := by rw [← hid, ← hval]; rfl
        have hpp : pr' = pr := row_eq_of_id_eq hndP hpr'm hpr hid'
        rw [← hpp]
        exact hmatch
      · exfalso
        rw [← hval] at htype
        have hty : (workResult q w).type = "work_experience" := rfl
        rw [hty] at htype
        exact absurd htype (by decide)
  · intro w hw
    constructor
    · intro hm
      exact ⟨workResult q w,
        (hmemout _).mpr (Or.inr ⟨w, List.mem_filter.mpr ⟨hw, hm⟩, rfl⟩), rfl, rfl⟩
    · rintro ⟨r, hr, htype, hid⟩
      rcases (hmemout r).mp hr with ⟨pr', hpr', hval⟩ | ⟨w', hw', hval⟩
      · exfalso
        rw [← hval] at htype
        have hty : (projResult q pr').type = "project" := rfl
        rw [hty] at htype
        exact absurd htype (by decide)
      · obtain ⟨hw'm, hmatch⟩ := List.mem_filter.mp hw'
        have hid' : w'.id = w.id := by rw [← hid, ← hval]; rfl
        have hww : w' = w := row_eq_of_id_eq hndW hw'm hw hid'
        rw [← hww]
        exact hmatch
  · intro r hr
    rcases (hmemout r).mp hr with ⟨pr, hprf, hval⟩ | ⟨w, hwff, hval⟩
    · rw [← hval]
      simp only [projResult]
      split
      · norm_num
      · norm_num
    · rw [← hval]
      simp only [workResult]
      split
      · norm_num
      · norm_num
  · intro pr hpr r hr htype hid
    rcases (hmemout r).mp hr with ⟨pr', hpr', hval⟩ | ⟨w, hw', hval⟩
    · obtain ⟨hpr'm, -⟩ := List.mem_filter.mp hpr'
      have hid' : pr'.id = pr.id := by rw [← hid, ← hval]; rfl
      have hpp : pr' = pr := row_eq_of_id_eq hndP hpr'm hpr hid'
      rw [← hval, hpp]
      constructor
      · intro hcont
        have hne : pr.data.name ≠ "" := containsLower_ne_empty hq hcont
        simp [projResult, hcont, hne]
      · intro hcont
        simp [projResult, hcont]
    · exfalso
      rw [← hval] at htype
      have hty : (workResult q w).type = "work_experience" := rfl
      rw [hty] at htype
      exact absurd htype (by decide)
  · intro w hw r hr htype hid
    rcases (hmemout r).mp hr with ⟨pr', hpr', hval⟩ | ⟨w', hw', hval⟩
    · exfalso
      rw [← hval] at htype
      have hty : (projResult q pr').type = "project" := rfl
      rw [hty] at htype
      exact absurd htype (by decide)
    · obtain ⟨hw'm, -⟩ := List.mem_filter.mp hw'
      have hid' : w'.id = w.id := by rw [← hid, ← hval]; rfl
      have hww : w' = w := row_eq_of_id_eq hndW hw'm hw hid'
      rw [← hval, hww]
      constructor
      · intro hcont
        have hne : w.data.position ≠ "" := containsLower_ne_empty hq hcont
        simp [workResult, hcont, hne]
      · intro hcont
        simp [workResult, hcont]
  · rw [hrw]
    have htot : ∀ a b : SearchResult,
        (decide (b.relevance_score ≤ a.relevance_score)) = true ∨
        (decide (a.relevance_score ≤ b.relevance_score)) = true := by
      intro a b
      rcases le_total b.relevance_score a.relevance_score with h | h
      · exact Or.inl (decide_eq_true h)
      · exact Or.inr (decide_eq_true h)
    have htrans : ∀ a b c : SearchResult,
        (decide (b.relevance_score ≤ a.relevance_score)) = true →
        (decide (c.relevance_score ≤ b.relevance_score)) = true →
        (decide (c.relevance_score ≤ a.relevance_score)) = true := by
      intro a b c h1 h2
      exact decide_eq_true (le_trans (of_decide_eq_true h2) (of_decide_eq_true h1))
    exact (pairwise_sortLe _ htot htrans _).imp (fun h => of_decide_eq_true h)

/-- Witness for C7 (amended) with query "chat" on the populated store. -/
theorem C7_search_exact_scored_witness :
    (WF exDb ∧ ("chat" : String) ≠ "" ∧ '%' ∉ "chat".data ∧ '_' ∉ "chat".data ∧
      '\\' ∉ "chat".data) ∧
    ((∀ pr ∈ exDb.projects,
        (projMatch "chat" pr = true ↔
          ∃ r ∈ search_content "chat" exDb, r.type = "project" ∧ r.id = pr.id)) ∧
     (∀ w ∈ exDb.work_experience,
        (workMatch "chat" w = true ↔
          ∃ r ∈ search_content "chat" exDb, r.type = "work_experience" ∧ r.id = w.id)) ∧
     (∀ r ∈ search_content "chat" exDb, (1 : Rat) ≤ r.relevance_score) ∧
     (∀ pr ∈ exDb.projects, ∀ r ∈ search_content "chat" exDb,
        r.type = "project" → r.id = pr.id →
        ((containsLower "chat" pr.data.name = true → r.relevance_score = 3/2) ∧
         (containsLower "chat" pr.data.name = false → r.relevance_score = 1))) ∧
     (∀ w ∈ exDb.work_experience, ∀ r ∈ search_content "chat" exDb,
        r.type = "work_experience" → r.id = w.id →
        ((containsLower "chat" w.data.position = true → r.relevance_score = 3/2) ∧
         (containsLower "chat" w.data.position = false → r.relevance_score = 1))) ∧
     List.Pairwise (fun a b : SearchResult => b.relevance_score ≤ a.relevance_score)
       (search_content "chat" exDb)) :=
  ⟨⟨by decide, by decide, by decide, by decide, by decide⟩,
   C7_search_exact_scored "chat" exDb (by decide) (by decide) (by decide) (by decide)
     (by decide)⟩

/-- Counterexample to C7 as stated: with query "a_" the LIKE filter treats
the underscore as a single-character wildcard, so the project named "ab" —
which does not contain "a_" and has no description — is returned (with
score 1.0). Likewise the query "a\b", which contains neither % nor _, is
returned for "ab" because the backslash is the LIKE escape character. -/
theorem C7_counterexample :
    WF c7db ∧
    ("a_" : String) ≠ "" ∧
    c7db.projects = [⟨1, 1, { name := "ab" }⟩] ∧
    containsLower "a_" "ab" = false ∧
    search_content "a_" c7db =
      [{ type := "project", id := 1, title := "ab", description := none,
         relevance_score := 1 }] ∧
    ('%' ∉ ("a\\b" : String).data ∧ '_' ∉ ("a\\b" : String).data) ∧
    containsLower "a\\b" "ab" = false ∧
    search_content "a\\b" c7db =
      [{ type := "project", id := 1, title := "ab", description := none,
         relevance_score := 1 }] :=
  ⟨by decide, by decide, by decide, by decide, by decide, by decide, by decide,
   by decide⟩

end MeApi
